import Mathlib

/-!
Verification of the LLMule broker's request-routing and accounting core
against its natural-language specification.

The development shallowly embeds the JavaScript sources:
* `config/tokenomics.js` (tokenConfig, TokenCalculator),
* `src/config/models.js` (modelConfig, ModelManager),
* `services/tokenService.js` (TokenService.processUsage, _updateBalances),
* `src/controllers/llmController.js` (balance pre-check, handleError),
* `src/services/providerManager.js` (scoring, selection, in-flight counters).

Numeric values (IEEE doubles in the source) are modelled as rationals; the
JavaScript `Number(x.toFixed(6))` normalisation is modelled as rounding
half-toward-positive-infinity at six decimal places, which is the ECMA
`toFixed` tie rule ("pick the larger n").
-/

namespace LLMule

/-! ## config/tokenomics.js : tokenConfig -/

namespace Tokenomics

/-- MULE.decimals in tokenConfig. -/
def decimals : ℕ := 6

/-- fees.platform_fee = 0.10. -/
def platformFeeRate : ℚ := 10 / 100

/-- MULE.welcome_amount = 1.0. -/
def welcomeAmount : ℚ := 1

/-- conversion_rates: tokens per 1 MULE, keyed by tier string.
`none` models an absent key (the source's `!rate` guard). -/
def conversionRates (tier : String) : Option ℚ :=
  if tier = "small" then some 1000000
  else if tier = "medium" then some 500000
  else if tier = "large" then some 250000
  else if tier = "xl" then some 125000
  else none

/-- JavaScript `parseFloat(x.toFixed(6))` on a rational value: round to the
nearest multiple of 10⁻⁶, ties toward +∞ (ECMA toFixed picks the larger n). -/
def toFixed6 (q : ℚ) : ℚ := ((round (q * 1000000) : ℤ) : ℚ) / 1000000

theorem toFixed6_zero : toFixed6 0 = 0 := by
  simp [toFixed6]

theorem toFixed6_intMul (q : ℚ) (z : ℤ) (h : q * 1000000 = (z : ℚ)) :
    toFixed6 q = (z : ℚ) / 1000000 := by
  simp [toFixed6, h, round_intCast]

theorem toFixed6_nonneg (q : ℚ) (h : 0 ≤ q) : 0 ≤ toFixed6 q := by
  have h1 : (0 : ℤ) ≤ round (q * 1000000) := by
    have hq : (0 : ℚ) ≤ q * 1000000 := by positivity
    rw [round_eq]
    exact Int.le_floor.mpr (by push_cast; linarith)
  unfold toFixed6
  positivity

theorem toFixed6_idem (q : ℚ) : toFixed6 (toFixed6 q) = toFixed6 q := by
  unfold toFixed6
  rw [div_mul_cancel₀ _ (by norm_num : (1000000 : ℚ) ≠ 0), round_intCast]

end Tokenomics

/-! ## config/tokenomics.js : TokenCalculator (validated version) -/

namespace TokenCalculator

/-- `TokenCalculator.mulesToTokens(mules, tier)`: clamp invalid or negative
input to 0, look up the rate (0 on unknown tier), `Math.floor(mules * rate)`. -/
def mulesToTokens (mules : ℚ) (tier : String) : ℚ :=
  if mules < 0 then 0
  else
    match Tokenomics.conversionRates tier with
    | none => 0
    | some rate => ((⌊mules * rate⌋ : ℤ) : ℚ)

/-- `TokenCalculator.tokensToMules(tokens, tier)`: clamp invalid or negative
input to 0, look up the rate (0 on unknown tier),
`parseFloat((tokens / rate).toFixed(6))`. -/
def tokensToMules (tokens : ℚ) (tier : String) : ℚ :=
  if tokens < 0 then 0
  else
    match Tokenomics.conversionRates tier with
    | none => 0
    | some rate => Tokenomics.toFixed6 (tokens / rate)

/-- `TokenCalculator.calculateProviderEarnings(tokens, tier)`: converts the
token count to MULE and multiplies by (1 - platform_fee), with no final
rounding step. -/
def calculateProviderEarnings (tokens : ℚ) (tier : String) : ℚ :=
  tokensToMules tokens tier * (1 - Tokenomics.platformFeeRate)

/-- `TokenCalculator.formatMules(amount)`. -/
def formatMules (amount : ℚ) : ℚ := Tokenomics.toFixed6 amount

theorem tokensToMules_nonneg (tokens : ℚ) (tier : String) :
    0 ≤ tokensToMules tokens tier := by
  unfold tokensToMules
  split
  · exact le_refl 0
  · rcases h : Tokenomics.conversionRates tier with _ | r
    · exact le_refl 0
    · rename_i hneg
      have ht : (0 : ℚ) ≤ tokens := le_of_not_lt hneg
      have hr : (0 : ℚ) < r := by
        unfold Tokenomics.conversionRates at h
        split_ifs at h <;> simp_all <;> norm_num [← h]
      exact Tokenomics.toFixed6_nonneg _ (by positivity)

end TokenCalculator

/-! ## Reference definitions transcribed from the specification text (§4.2).
These follow the spec's words, to be compared with the source embedding. -/

namespace SpecRef

/-- Spec: all MULE values rounded to six fractional digits. -/
def round6 (q : ℚ) : ℚ := ((round (q * 1000000) : ℤ) : ℚ) / 1000000

/-- Spec: `tokens_to_mules(n, tier) = round6(n / rate[tier])` with defensive
clamp: negative n yields 0. -/
def tokens_to_mules (n : ℚ) (rate : ℚ) : ℚ :=
  if n < 0 then 0 else round6 (n / rate)

/-- Spec: `mules_to_tokens(m, tier) = floor(m × rate[tier])` (no clamp in the
spec's wording). -/
def mules_to_tokens (m : ℚ) (rate : ℚ) : ℚ := ((⌊m * rate⌋ : ℤ) : ℚ)

/-- Spec: `platform_fee(m) = round6(m × platform_fee_rate)`. -/
def platform_fee (m : ℚ) : ℚ := round6 (m * (10 / 100))

/-- Spec: `provider_earnings(m) = round6(m × (1 − platform_fee_rate))`. -/
def provider_earnings (m : ℚ) : ℚ := round6 (m * (1 - 10 / 100))

end SpecRef

/-- Exact round trip through the calculator: for the four configured tiers the
rate divides 10⁶, so `tokensToMules` introduces no rounding error at all and
`mulesToTokens` recovers the token count exactly. `k` is 10⁶ / rate. -/
theorem roundtrip_exact (t : String) (r : ℚ) (k : ℕ)
    (hr : Tokenomics.conversionRates t = some r)
    (hk : (k : ℚ) * r = 1000000) (hkpos : 0 < k) (n : ℕ) :
    TokenCalculator.mulesToTokens (TokenCalculator.tokensToMules (n : ℚ) t) t
      = (n : ℚ) := by
  have hk0 : ((k : ℚ)) ≠ 0 := by exact_mod_cast hkpos.ne'
  have hrpos : (0 : ℚ) < r := by
    rcases lt_trichotomy r 0 with h | h | h
    · exfalso
      have : (k : ℚ) * r < 0 := by
        have : (0 : ℚ) < (k : ℚ) := by exact_mod_cast hkpos
        exact mul_neg_of_pos_of_neg this h
      rw [hk] at this; norm_num at this
    · rw [h, mul_zero] at hk; norm_num at hk
    · exact h
  have hn0 : ¬ ((n : ℚ) < 0) := not_lt.mpr (by positivity)
  have h1 : TokenCalculator.tokensToMules (n : ℚ) t = ((n * k : ℕ) : ℚ) / 1000000 := by
    unfold TokenCalculator.tokensToMules
    rw [if_neg hn0, hr]
    show Tokenomics.toFixed6 ((n : ℚ) / r) = ((n * k : ℕ) : ℚ) / 1000000
    have := Tokenomics.toFixed6_intMul ((n : ℚ) / r) ((n : ℕ) * (k : ℕ) : ℤ)
      (by push_cast; field_simp; nlinarith [hk])
    rw [this]; push_cast; ring
  rw [h1]
  have hm0 : ¬ (((n * k : ℕ) : ℚ) / 1000000 < 0) := not_lt.mpr (by positivity)
  unfold TokenCalculator.mulesToTokens
  rw [if_neg hm0, hr]
  show ((⌊((n * k : ℕ) : ℚ) / 1000000 * r⌋ : ℤ) : ℚ) = (n : ℚ)
  have h2 : ((n * k : ℕ) : ℚ) / 1000000 * r = (n : ℚ) := by
    push_cast
    field_simp
    nlinarith [hk]
  rw [h2, Int.floor_natCast]
  push_cast
  ring

/-! ## services/tokenService.js : TokenService.processUsage and _updateBalances

The database effects of one settlement are modelled as the transaction record
written by `Transaction.create` plus the two balance increments performed by
`_updateBalances` (`consumerDelta` is added to the consumer's balance,
`providerDelta` to the provider's). -/

namespace TokenService

/-- Input of `TokenService.processUsage` (consumer id, optional provider id,
tier string, reported usage). Ids are compared with `toString()` equality. -/
structure UsageInput where
  consumerId : String
  providerId : Option String
  modelTier : String
  totalTokens : ℚ
  deriving DecidableEq

/-- The fields of the transaction document relevant to accounting. -/
structure TransactionRec where
  transactionType : String
  consumerId : String
  providerId : Option String
  modelTier : String
  muleAmount : ℚ
  platformFee : ℚ
  deriving DecidableEq

/-- Result of one settlement: the recorded transaction and the two balance
increments applied by `_updateBalances` (0 when the update is skipped). -/
structure SettlementResult where
  txn : TransactionRec
  consumerDelta : ℚ
  providerDelta : ℚ
  deriving DecidableEq

/-- `providerId && consumerId.toString() === providerId.toString()`. -/
def isSelfService (consumerId : String) (providerId : Option String) : Bool :=
  match providerId with
  | some p => consumerId = p
  | none => false

/-- The platform fee computed in `processUsage`:
`Math.max(0, parseFloat((muleAmount * platform_fee).toFixed(6)))`. -/
def platformFeeOf (muleAmount : ℚ) : ℚ :=
  max 0 (Tokenomics.toFixed6 (muleAmount * Tokenomics.platformFeeRate))

/-- The provider-side increment of `_updateBalances`: credited only when a
provider id is present and differs from the consumer id; the credited amount
is `muleAmount - platformFee` with no further rounding. -/
def updateBalancesProviderDelta (consumerId : String) (providerId : Option String)
    (muleAmount platformFee : ℚ) : ℚ :=
  match providerId with
  | some p => if consumerId ≠ p then muleAmount - platformFee else 0
  | none => 0

/-- The `muleAmount` computed at the top of `processUsage`. -/
def muleAmountOf (u : UsageInput) : ℚ :=
  TokenCalculator.tokensToMules u.totalTokens u.modelTier

/-- The transaction document assembled by `processUsage` (`transactionData`
followed by `Transaction.create`): `muleAmount` and `platformFee` are stored
through `parseFloat(x.toFixed(6))`. -/
def txnOf (u : UsageInput) : TransactionRec :=
  { transactionType :=
      if isSelfService u.consumerId u.providerId then "self_service" else "consumption"
    consumerId := u.consumerId
    providerId := u.providerId
    modelTier := u.modelTier
    muleAmount := Tokenomics.toFixed6 (muleAmountOf u)
    platformFee := Tokenomics.toFixed6 (platformFeeOf (muleAmountOf u)) }

/-- `TokenService.processUsage`: computes the MULE amount and fee, writes a
transaction of kind `self_service` or `consumption`, and runs
`_updateBalances` only when the transaction is not self-service and the
amount is positive (`if (!isSelfService && muleAmount > 0)`). -/
def processUsage (u : UsageInput) : SettlementResult :=
  if ¬ isSelfService u.consumerId u.providerId ∧ 0 < muleAmountOf u then
    { txn := txnOf u
      consumerDelta := -(muleAmountOf u)
      providerDelta :=
        updateBalancesProviderDelta u.consumerId u.providerId (muleAmountOf u)
          (platformFeeOf (muleAmountOf u)) }
  else
    { txn := txnOf u, consumerDelta := 0, providerDelta := 0 }

end TokenService

/-! ## String helpers shared by the controller and the model classifier. -/

namespace Str

/-- Does `needle` occur verbatim at the head of `hay`? -/
def matchesAt (needle hay : List Char) : Bool :=
  match needle, hay with
  | [], _ => true
  | _ :: _, [] => false
  | c :: ns, h :: hs => c = h && matchesAt ns hs

/-- Does `needle` occur anywhere in `hay`? Models JavaScript
`String.prototype.includes`. -/
def containsSub (hay needle : List Char) : Bool :=
  match hay with
  | [] => needle.isEmpty
  | _ :: t => matchesAt needle hay || containsSub t needle

/-- JavaScript `hay.includes(needle)`. -/
def strIncludes (hay needle : String) : Bool :=
  containsSub hay.data needle.data

/-- JavaScript `s.toLowerCase()` (character-wise; the identifiers involved
are ASCII). -/
def jsToLower (s : String) : String := String.mk (s.data.map Char.toLower)

/-- JavaScript `s.includes(c)` for a single character. -/
def containsChar (s : String) (c : Char) : Bool := s.data.any (fun x => x = c)

/-- JavaScript `s.split(c)` for a single-character separator. -/
def splitOnChar (c : Char) : List Char → List (List Char)
  | [] => [[]]
  | x :: rest =>
    if x = c then [] :: splitOnChar c rest
    else
      match splitOnChar c rest with
      | [] => [[x]]
      | g :: gs => (x :: g) :: gs

theorem matchesAt_append (n rest : List Char) : matchesAt n (n ++ rest) = true := by
  induction n with
  | nil => rfl
  | cons c cs ih => simp [matchesAt, ih]

theorem containsSub_of_head (needle rest : List Char) :
    containsSub (needle ++ rest) needle = true := by
  cases needle with
  | nil =>
    cases rest with
    | nil => rfl
    | cons h t =>
      unfold containsSub
      simp [matchesAt]
  | cons c cs =>
    unfold containsSub
    simp only [List.cons_append, Bool.or_eq_true]
    exact Or.inl (matchesAt_append (c :: cs) rest)

theorem containsSub_append_left (x y needle : List Char)
    (h : containsSub y needle = true) : containsSub (x ++ y) needle = true := by
  induction x with
  | nil => simpa using h
  | cons c cs ih =>
    unfold containsSub
    simp only [List.cons_append, Bool.or_eq_true]
    exact Or.inr ih

/-- Any string of the form `p ++ needle ++ s` includes `needle`. -/
theorem strIncludes_of_middle (p needle s : String) :
    strIncludes (p ++ needle ++ s) needle = true := by
  unfold strIncludes
  have hdata : (p ++ needle ++ s).data = p.data ++ (needle.data ++ s.data) := by
    simp [String.data_append]
  rw [hdata]
  exact containsSub_append_left _ _ _ (containsSub_of_head _ _)

end Str

/-! ## controllers/llmController.js : balance pre-check and error mapping -/

namespace llmController

/-- Zero-pad a fraction numerator to six digits. -/
def padFrac (n : ℕ) : String :=
  String.mk (List.replicate (6 - (toString n).length) '0') ++ toString n

/-- Render a value already scaled by 10⁶ as a fixed-point decimal string. -/
def renderScaled (u : ℤ) : String :=
  (if u < 0 then "-" else "") ++ toString (u.natAbs / 1000000) ++ "."
    ++ padFrac (u.natAbs % 1000000)

/-- Renders a rational the way `x.toFixed(6)` renders the corresponding
double: integer part, a dot, six zero-padded fraction digits. -/
def toFixed6Str (q : ℚ) : String :=
  renderScaled (round (q * 1000000))

/-- An error thrown inside `handleLLMRequest` (`{code, message}`). -/
structure ThrownError where
  code : String
  message : String
  deriving DecidableEq

/-- The HTTP error response assembled by `handleError` (status plus the
`error` object's stable fields). -/
structure ApiResponse where
  status : ℕ
  message : String
  errType : String
  errCode : String
  deriving DecidableEq

/-- `req.body.max_tokens || modelInfo.context`: a missing or zero (falsy)
max_tokens falls back to the model's context window. -/
def estimatedTokensOf (maxTokens : Option ℚ) (contextWin : ℚ) : ℚ :=
  match maxTokens with
  | some v => if v = 0 then contextWin else v
  | none => contextWin

/-- `estimatedCost = TokenCalculator.tokensToMules(estimatedTokens, tier)`. -/
def estimatedCostOf (maxTokens : Option ℚ) (contextWin : ℚ) (tier : String) : ℚ :=
  TokenCalculator.tokensToMules (estimatedTokensOf maxTokens contextWin) tier

/-- The message of the thrown insufficient-balance error. -/
def insufficientMessage (required available : ℚ) : String :=
  "Insufficient balance. Required: " ++ toFixed6Str required ++ " MULE, Available: "
    ++ toFixed6Str available ++ " MULE"

/-- The balance pre-check of `handleLLMRequest` (lines 49-59): computes the
estimated cost and throws `INSUFFICIENT_BALANCE` when the balance is
strictly below it. `none` means the check passes. -/
def preCheck (balance : ℚ) (maxTokens : Option ℚ) (contextWin : ℚ)
    (tier : String) : Option ThrownError :=
  if balance < estimatedCostOf maxTokens contextWin tier then
    some { code := "INSUFFICIENT_BALANCE"
           message := insufficientMessage (estimatedCostOf maxTokens contextWin tier) balance }
  else none

/-- `handleError`: maps a thrown error to the response sent to the client.
For the three known codes the response body is the static `APIErrors` entry;
the thrown error's own message is discarded. -/
def handleError (e : ThrownError) : ApiResponse :=
  if e.code = "NO_MODELS_AVAILABLE" then
    { status := 400, message := "No models available for the requested tier or model"
      errType := "invalid_request_error", errCode := "model_not_available" }
  else if e.code = "INSUFFICIENT_BALANCE" then
    { status := 402, message := "Insufficient balance to process request"
      errType := "invalid_request_error", errCode := "insufficient_balance" }
  else if e.code = "INVALID_MODEL" then
    { status := 400, message := "The requested model is not valid"
      errType := "invalid_request_error", errCode := "invalid_model" }
  else
    { status := 500, message := e.message
      errType := "api_error", errCode := "internal_error" }

/-- Outcome of the pre-forward stage of `handleLLMRequest`: either the request
goes on to `processLLMRequest` (forwarded) or the catch block answers with an
error response and nothing is sent to any provider. -/
inductive PreStageOutcome where
  | forwarded
  | rejected (r : ApiResponse)
  deriving DecidableEq

/-- The pre-check stage: a thrown `INSUFFICIENT_BALANCE` is caught by
`handleError` and the request is never forwarded. -/
def balanceStage (balance : ℚ) (maxTokens : Option ℚ) (contextWin : ℚ)
    (tier : String) : PreStageOutcome :=
  match preCheck balance maxTokens contextWin tier with
  | some e => .rejected (handleError e)
  | none => .forwarded

end llmController

/-! ## src/services/providerManager.js : scoring, selection and in-flight
bookkeeping -/

namespace ProviderManager

/-- `loadBalancingThreshold = 5`. -/
def loadBalancingThreshold : ℚ := 5

/-- `_calculateProviderScore(load, tokensPerSecond)`:
`(1 - load/threshold) * 0.6 + min(tps/100, 1) * 0.4`. -/
def calculateProviderScore (load tokensPerSecond : ℚ) : ℚ :=
  (1 - load / loadBalancingThreshold) * (6 / 10) + min (tokensPerSecond / 100) 1 * (4 / 10)

/-- The `$slice: -10` projection: the last 10 samples of the history. -/
def recentHistory (history : List ℚ) : List ℚ :=
  history.drop (history.length - 10)

/-- `_getProviderPerformance`: mean tokens/sec of the last 10 samples of the
performance history, 0 when the history is empty. -/
def getProviderPerformance (history : List ℚ) : ℚ :=
  if (recentHistory history).length = 0 then 0
  else (recentHistory history).sum / (recentHistory history).length

/-- One scored candidate as built inside `_selectOptimalProvider`. -/
structure ScoredProvider where
  socketId : String
  load : ℚ
  tps : ℚ
  score : ℚ
  deriving DecidableEq

/-- Build the scored entry for one eligible candidate (socket id, current
requestQueue load, performance history). -/
def scoreCandidate (socketId : String) (load : ℚ) (history : List ℚ) :
    ScoredProvider :=
  { socketId := socketId, load := load, tps := getProviderPerformance history
    score := calculateProviderScore load (getProviderPerformance history) }

/-- The `reduce` step of `_selectOptimalProvider`:
`current.score > best.score ? current : best`. -/
def betterOf (best current : ScoredProvider) : ScoredProvider :=
  if best.score < current.score then current else best

/-- `_selectOptimalProvider` on the (insertion-ordered) list of scored
candidates: `reduce(betterOf)` seeded with the first element; JavaScript
`reduce` with no initial value throws on an empty list, modelled as `none`. -/
def selectOptimalProvider (l : List ScoredProvider) : Option ScoredProvider :=
  match l with
  | [] => none
  | h :: t => some (t.foldl betterOf h)

/-- JavaScript `map.get(k) || d` on the counter maps: an absent key or a
stored 0 both give the default. -/
def jsOrD (v : Option ℤ) (d : ℤ) : ℤ :=
  match v with
  | some x => if x = 0 then d else x
  | none => d

/-- Pointwise update of a counter map. -/
def setCounter (f : String → Option ℤ) (k : String) (v : ℤ) :
    String → Option ℤ :=
  fun x => if x = k then some v else f x

/-- The two counter maps of `ProviderManager` touched by routing: the
`requestQueue` map consulted and incremented by `findAvailableProvider`, and
the legacy `requestCounts` map (set to 0 at registration, deleted at
removal). -/
structure CounterState where
  requestQueue : String → Option ℤ
  requestCounts : String → Option ℤ

/-- `registerProvider`: `this.requestCounts.set(socketId, 0)`; no
`requestQueue` entry is created. -/
def registerStep (s : CounterState) (socketId : String) : CounterState :=
  { s with requestCounts := setCounter s.requestCounts socketId 0 }

/-- `findAvailableProvider` after selection (lines 253-255):
`requestQueue.set(sel, (requestQueue.get(sel) || 0) + 1)`. -/
def selectStep (s : CounterState) (socketId : String) : CounterState :=
  { s with requestQueue :=
      setCounter s.requestQueue socketId (jsOrD (s.requestQueue socketId) 0 + 1) }

/-- The `routeRequest` timeout handler (lines 444-449):
`requestCounts.set(sock, (requestCounts.get(sock) || 1) - 1)` — it touches
`requestCounts`, not `requestQueue`. -/
def timeoutStep (s : CounterState) (socketId : String) : CounterState :=
  { s with requestCounts :=
      setCounter s.requestCounts socketId (jsOrD (s.requestCounts socketId) 1 - 1) }

/-- The `ws.send` error callback: rejects the request but decrements neither
counter map. -/
def sendFailStep (s : CounterState) : CounterState := s

/-- `handleCompletionResponse` (lines 526-528):
`requestQueue.set(sock, Math.max(0, (requestQueue.get(sock) || 1) - 1))`. -/
def completionStep (s : CounterState) (socketId : String) : CounterState :=
  { s with requestQueue :=
      setCounter s.requestQueue socketId (max 0 (jsOrD (s.requestQueue socketId) 1 - 1)) }

end ProviderManager

/-! ## src/config/models.js : modelConfig and ModelManager

The JavaScript regular expressions of `sizePatterns` are embedded as explicit
scanners: `test` succeeds exactly when the pattern matches at some position
of the (lowercased) identifier. `\b` is a word boundary over `[A-Za-z0-9_]`,
`X?` tries both alternatives, `.` is any character except a line
terminator. -/

namespace ModelManager

/-- JavaScript word character `\w`. -/
def isWordChar (c : Char) : Bool := c.isAlpha || c.isDigit || c = '_'

/-- Word boundary `\b` before a word character, given the previous char. -/
def boundaryBefore : Option Char → Bool
  | none => true
  | some c => !isWordChar c

/-- Word boundary `\b` after a word character, given the rest of the input. -/
def noWordAfter : List Char → Bool
  | [] => true
  | c :: _ => !isWordChar c

def charIn (lo hi c : Char) : Bool := lo ≤ c && c ≤ hi

/-- Run a start-anchored matcher at every position of the input, tracking the
previous character for word boundaries; models `RegExp.prototype.test`. -/
def testFrom (p : Option Char → List Char → Bool) (prev : Option Char)
    (cs : List Char) : Bool :=
  match cs with
  | [] => p prev []
  | c :: rest => p prev (c :: rest) || testFrom p (some c) rest

/-- Consume a literal sequence, returning the rest on success. -/
def dropLit : List Char → List Char → Option (List Char)
  | [], cs => some cs
  | _ :: _, [] => none
  | n :: ns, c :: cs => if c = n then dropLit ns cs else none

/-- The `-?` combinator: succeed with or without one leading dash. -/
def optDashThen (k : List Char → Bool) (cs : List Char) : Bool :=
  k cs ||
    match cs with
    | '-' :: r => k r
    | _ => false

/-- The tail `b\b` of the size patterns. -/
def bBoundary : List Char → Bool
  | 'b' :: rest => noWordAfter rest
  | _ => false

/-- The tail `[0-9]?b\b`. -/
def optDigitB (cs : List Char) : Bool :=
  bBoundary cs ||
    match cs with
    | c :: r => c.isDigit && bBoundary r
    | _ => false

/-- The tail `\.?[0-9]?b\b`. -/
def optDotDigitB (cs : List Char) : Bool :=
  optDigitB cs ||
    match cs with
    | '.' :: r => optDigitB r
    | _ => false

/-- `\b[lo-hi]\.?[0-9]?b\b` anchored at the current position. -/
def sizeBAt (lo hi : Char) (prev : Option Char) (cs : List Char) : Bool :=
  boundaryBefore prev &&
    match cs with
    | c :: rest => charIn lo hi c && optDotDigitB rest
    | [] => false

/-- `\b[lo1-hi1][lo2-hi2]\.?[0-9]?b\b` anchored at the current position. -/
def sizeB2At (lo1 hi1 lo2 hi2 : Char) (prev : Option Char) (cs : List Char) : Bool :=
  boundaryBefore prev &&
    match cs with
    | c1 :: c2 :: rest => charIn lo1 hi1 c1 && charIn lo2 hi2 c2 && optDotDigitB rest
    | _ => false

/-- `m\b`, the tail of `\b\d{1,3}m\b`. -/
def mBoundary : List Char → Bool
  | 'm' :: rest => noWordAfter rest
  | _ => false

/-- `\b\d{1,3}m\b` anchored at the current position. -/
def digitsM (prev : Option Char) (cs : List Char) : Bool :=
  boundaryBefore prev &&
    match cs with
    | c1 :: r1 =>
      c1.isDigit &&
        (mBoundary r1 ||
          match r1 with
          | c2 :: r2 =>
            c2.isDigit &&
              (mBoundary r2 ||
                match r2 with
                | c3 :: r3 => c3.isDigit && mBoundary r3
                | [] => false)
          | [] => false)
    | [] => false

/-- `phi-?[12]` anchored at the current position. -/
def phi12At (_ : Option Char) (cs : List Char) : Bool :=
  match dropLit "phi".data cs with
  | some rest =>
    optDashThen
      (fun r =>
        match r with
        | c :: _ => c = '1' || c = '2'
        | [] => false) rest
  | none => false

/-- `mistral-?7b` anchored at the current position. -/
def mistral7bAt (_ : Option Char) (cs : List Char) : Bool :=
  match dropLit "mistral".data cs with
  | some rest => optDashThen (fun r => (dropLit "7b".data r).isSome) rest
  | none => false

/-- `llama-?[23]-?7b` anchored at the current position. -/
def llama237bAt (_ : Option Char) (cs : List Char) : Bool :=
  match dropLit "llama".data cs with
  | some rest =>
    optDashThen
      (fun r =>
        match r with
        | c :: r2 =>
          (c = '2' || c = '3') &&
            optDashThen (fun r3 => (dropLit "7b".data r3).isSome) r2
        | [] => false) rest
  | none => false

/-- `phi-?4` anchored at the current position. -/
def phi4At (_ : Option Char) (cs : List Char) : Bool :=
  match dropLit "phi".data cs with
  | some rest =>
    optDashThen
      (fun r =>
        match r with
        | c :: _ => c = '4'
        | [] => false) rest
  | none => false

/-- A character the regex `.` accepts (anything but a line terminator). -/
def dotChar (c : Char) : Bool :=
  !(c = '\n' || c = '\r' || c.val = 0x2028 || c.val = 0x2029)

/-- The tail `.*14b` of `qwen.*14b`. -/
def dotStarThen14b : List Char → Bool
  | [] => false
  | c :: rest => (dropLit "14b".data (c :: rest)).isSome || (dotChar c && dotStarThen14b rest)

/-- `qwen.*14b` anchored at the current position. -/
def qwen14bAt (_ : Option Char) (cs : List Char) : Bool :=
  match dropLit "qwen".data cs with
  | some rest => dotStarThen14b rest
  | none => false

/-- `llama-?2-?70b` anchored at the current position. -/
def llama270bAt (_ : Option Char) (cs : List Char) : Bool :=
  match dropLit "llama".data cs with
  | some rest =>
    optDashThen
      (fun r =>
        match r with
        | '2' :: r2 => optDashThen (fun r3 => (dropLit "70b".data r3).isSome) r2
        | _ => false) rest
  | none => false

/-- `sizePatterns.small` tested in order on the lowercased identifier. -/
def smallPattern (cs : List Char) : Bool :=
  testFrom (sizeBAt '1' '3') none cs
  || Str.containsSub cs "tiny".data || Str.containsSub cs "mini".data
  || Str.containsSub cs "small".data
  || testFrom digitsM none cs
  || testFrom phi12At none cs

/-- `sizePatterns.medium` tested in order. -/
def mediumPattern (cs : List Char) : Bool :=
  testFrom (sizeBAt '4' '9') none cs
  || testFrom (sizeB2At '1' '1' '0' '2') none cs
  || testFrom mistral7bAt none cs
  || testFrom llama237bAt none cs

/-- `sizePatterns.large` tested in order. -/
def largePattern (cs : List Char) : Bool :=
  testFrom (sizeB2At '1' '1' '3' '9') none cs
  || testFrom (sizeB2At '2' '2' '0' '9') none cs
  || Str.containsSub cs "mixtral".data
  || testFrom phi4At none cs
  || testFrom qwen14bAt none cs

/-- `sizePatterns.xl` tested in order. -/
def xlPattern (cs : List Char) : Bool :=
  testFrom (sizeB2At '3' '9' '0' '9') none cs
  || testFrom llama270bAt none cs

/-- The `Object.entries(sizePatterns)` loop: tiers are tried in declaration
order small, medium, large, xl; the first matching tier wins. -/
def tierOfPatterns (cs : List Char) : Option String :=
  if smallPattern cs then some "small"
  else if mediumPattern cs then some "medium"
  else if largePattern cs then some "large"
  else if xlPattern cs then some "xl"
  else none

/-- The value handed to `createModelInfo`: normally a tier string; `tobj`
models the raw nested `phi['3']` table `{mini:'small', default:'medium'}`
that the source passes through unprocessed. -/
inductive TierVal where
  | tstr (s : String)
  | tobj
  deriving DecidableEq

/-- The capability record built by `ModelManager.createModelInfo`. -/
structure ModelInfo where
  tier : TierVal
  type : String
  context : ℕ
  reqRam : String
  reqGpu : Option String
  deriving DecidableEq

/-- `ModelManager.createModelInfo(tier)`: context and requirements are looked
up by tier string with defaults 8192 and the medium requirements; a non-string
tier hits the defaults. -/
def createModelInfo (tier : TierVal) : ModelInfo :=
  { tier := tier
    type := "llm"
    context :=
      match tier with
      | .tstr s =>
        if s = "small" then 4096 else if s = "medium" then 8192
        else if s = "large" then 32768 else if s = "xl" then 32768 else 8192
      | .tobj => 8192
    reqRam :=
      match tier with
      | .tstr s =>
        if s = "small" then "4GB" else if s = "medium" then "8GB"
        else if s = "large" then "16GB" else if s = "xl" then "32GB" else "8GB"
      | .tobj => "8GB"
    reqGpu :=
      match tier with
      | .tstr s =>
        if s = "small" then none else if s = "medium" then some "8GB VRAM"
        else if s = "large" then some "16GB VRAM"
        else if s = "xl" then some "32GB VRAM" else some "8GB VRAM"
      | .tobj => some "8GB VRAM" }

/-- A value of the nested per-family variant tables: a tier string, or the
nested `phi['3']` object. -/
inductive VariantVal where
  | vtier (t : String)
  | vnested
  deriving DecidableEq

/-- An entry of `modelConfig.modelFamilies`: a plain tier string or one of the
three nested variant tables. -/
inductive FamilyVal where
  | ftier (t : String)
  | fphi
  | fllama2
  | fvicuna
  deriving DecidableEq

/-- `modelFamilies.phi`. -/
def phiVariants (v : String) : Option VariantVal :=
  if v = "1" then some (.vtier "small")
  else if v = "2" then some (.vtier "small")
  else if v = "3" then some .vnested
  else if v = "4" then some (.vtier "large")
  else none

/-- `modelFamilies.llama2`. -/
def llama2Variants (v : String) : Option VariantVal :=
  if v = "7b" then some (.vtier "medium")
  else if v = "13b" then some (.vtier "medium")
  else if v = "70b" then some (.vtier "xl")
  else none

/-- `modelFamilies.vicuna`. -/
def vicunaVariants (v : String) : Option VariantVal :=
  if v = "7b" then some (.vtier "medium")
  else if v = "13b" then some (.vtier "medium")
  else none

/-- `modelConfig.modelFamilies` (own properties only). -/
def modelFamilies (f : String) : Option FamilyVal :=
  if f = "phi" then some .fphi
  else if f = "mistral" then some (.ftier "medium")
  else if f = "mixtral" then some (.ftier "large")
  else if f = "llama2" then some .fllama2
  else if f = "openchat" then some (.ftier "medium")
  else if f = "openhermes" then some (.ftier "medium")
  else if f = "hermes" then some (.ftier "medium")
  else if f = "vicuna" then some .fvicuna
  else none

/-- The variant lookup on a nested family entry. -/
def nestedVariantLookup : FamilyVal → String → Option VariantVal
  | .ftier _ => fun _ => none
  | .fphi => phiVariants
  | .fllama2 => llama2Variants
  | .fvicuna => vicunaVariants

/-- JavaScript `split(/[-:\/]/)`: split at every dash, colon or slash. -/
def splitDelims : List Char → List (List Char)
  | [] => [[]]
  | c :: rest =>
    if c = '-' ∨ c = ':' ∨ c = '/' then [] :: splitDelims rest
    else
      match splitDelims rest with
      | [] => [[c]]
      | g :: gs => (c :: g) :: gs

/-- `modelName.toLowerCase().split(/[-:\/]/)[0]`. -/
def familyOf (low : String) : String :=
  String.mk ((splitDelims low.data).headD [])

/-- `modelName.toLowerCase().split(/[-:\/]/)[1]`. -/
def variantOf (low : String) : Option String :=
  ((splitDelims low.data)[1]?).map String.mk

/-- Resolution through a nested family table: `if (variant &&
modelFamilies[family][variant]) return createModelInfo(...)`; an absent or
falsy (empty) variant, or a variant missing from the table, falls through. -/
def variantResult (fv : FamilyVal) (low : String) : Option ModelInfo :=
  match variantOf low with
  | some variant =>
    if variant = "" then none
    else
      match nestedVariantLookup fv variant with
      | some (.vtier t) => some (createModelInfo (.tstr t))
      | some .vnested => some (createModelInfo .tobj)
      | none => none
  | none => none

/-- The model-family block of `getModelInfo` (lines 219-232): look up the
leading token; a string entry resolves directly, an object entry resolves
through the (truthy) variant; otherwise fall through. -/
def familyResult (low : String) : Option ModelInfo :=
  match modelFamilies (familyOf low) with
  | some (.ftier t) => some (createModelInfo (.tstr t))
  | some fv => variantResult fv low
  | none => none

/-- The body of `getModelInfo` on the already-lowercased identifier:
direct tier request, mini check, family table, size patterns, then the
medium default. This path always yields a record. -/
def classifyLow (low : String) : ModelInfo :=
  if low ∈ (["small", "medium", "large", "xl"] : List String) then
    createModelInfo (.tstr low)
  else if Str.strIncludes low "mini" then
    createModelInfo (.tstr "small")
  else
    match familyResult low with
    | some info => info
    | none =>
      match tierOfPatterns low.data with
      | some t => createModelInfo (.tstr t)
      | none => createModelInfo (.tstr "medium")

/-- `ModelManager.getModelInfo` restricted to a truthy string without a
pipe (the source lowercases the name at each test site). -/
def classifyNoPipe (modelName : String) : ModelInfo :=
  classifyLow (Str.jsToLower modelName)

/-- `modelConfig.modelTypes`: each case-insensitive pattern is a list of
alternative substrings. -/
def modelTypes (k : String) : Option (List String) :=
  if k = "mistral" then some ["mistral", "mistal"]
  else if k = "llama" then some ["llama", "alpaca"]
  else if k = "phi" then some ["phi"]
  else if k = "qwen" then some ["qwen"]
  else if k = "mixtral" then some ["mixtral"]
  else if k = "hermes" then some ["hermes"]
  else if k = "openchat" then some ["openchat"]
  else none

/-- `typePattern.test(model)` for a `modelTypes` pattern (the `/i` flag makes
it a lowercased substring check). -/
def testTypePattern (alts : List String) (m : String) : Bool :=
  alts.any (fun a => Str.strIncludes (Str.jsToLower m) a)

/-- `ModelManager._handleCombinedRequest(tierOrType, model)`; `inner` is the
recursive `getModelInfo(model)` call (the model part of a split can contain
no pipe, and an empty model string is falsy, yielding the medium default). -/
def handleCombinedRequest (tierOrType model : String) : Option ModelInfo :=
  let inner : ModelInfo :=
    if model = "" then createModelInfo (.tstr "medium") else classifyNoPipe model
  if Str.jsToLower tierOrType ∈ (["small", "medium", "large", "xl"] : List String) then
    if inner.tier = .tstr (Str.jsToLower tierOrType) then some inner else none
  else
    match modelTypes (Str.jsToLower tierOrType) with
    | some alts => if testTypePattern alts model then some inner else none
    | none => none

/-- `getModelInfo` on a truthy string: the pipe check dispatches to
`_handleCombinedRequest` with the first two split parts. -/
def getModelInfoStr (s : String) : Option ModelInfo :=
  if Str.containsChar s '|' then
    handleCombinedRequest (String.mk ((Str.splitOnChar '|' s.data).headD []))
      (String.mk (((Str.splitOnChar '|' s.data)[1]?).getD []))
  else some (classifyNoPipe s)

/-- The argument of `getModelInfo`: null/undefined, a string, or an object
with optional `name` and `id` string fields. -/
inductive JSModelArg where
  | jnull
  | jstr (s : String)
  | jobj (name id : Option String)
  deriving DecidableEq

/-- JavaScript `a || b` on an optional string (the empty string is falsy). -/
def jsOrStr (a : Option String) (b : String) : String :=
  match a with
  | some s => if s = "" then b else s
  | none => b

/-- `modelName.name || modelName.id || ''`. -/
def extractModelName (name id : Option String) : String :=
  jsOrStr name (jsOrStr id "")

/-- `ModelManager.getModelInfo`: falsy arguments yield the medium default;
an object argument is reduced to its `name`/`id` string first. -/
def getModelInfo (arg : JSModelArg) : Option ModelInfo :=
  match arg with
  | .jnull => some (createModelInfo (.tstr "medium"))
  | .jstr s =>
    if s = "" then some (createModelInfo (.tstr "medium")) else getModelInfoStr s
  | .jobj name id => getModelInfoStr (extractModelName name id)

/-- The string a `getModelInfo` argument is ultimately classified from. -/
def argString : JSModelArg → String
  | .jnull => ""
  | .jstr s => s
  | .jobj name id => extractModelName name id

end ModelManager

/-! ## Supporting lemmas -/

theorem round6_eq_toFixed6 (q : ℚ) : SpecRef.round6 q = Tokenomics.toFixed6 q := rfl

/-- A calculator output is already normalised at six decimals. -/
theorem toFixed6_tokensToMules (tokens : ℚ) (tier : String) :
    Tokenomics.toFixed6 (TokenCalculator.tokensToMules tokens tier)
      = TokenCalculator.tokensToMules tokens tier := by
  unfold TokenCalculator.tokensToMules
  split
  · exact Tokenomics.toFixed6_zero
  · rcases Tokenomics.conversionRates tier with _ | r
    · exact Tokenomics.toFixed6_zero
    · exact Tokenomics.toFixed6_idem _

/-- For a non-negative amount the `Math.max(0, ...)` guard in the fee
computation is inert. -/
theorem platformFeeOf_eq (m : ℚ) (hm : 0 ≤ m) :
    TokenService.platformFeeOf m
      = Tokenomics.toFixed6 (m * Tokenomics.platformFeeRate) := by
  unfold TokenService.platformFeeOf
  exact max_eq_right (Tokenomics.toFixed6_nonneg _ (by unfold Tokenomics.platformFeeRate; positivity))

theorem platformFeeOf_nonneg (m : ℚ) : 0 ≤ TokenService.platformFeeOf m :=
  le_max_left 0 _

/-! ## Claims -/

/-- The transaction written by `processUsage` does not depend on the balance
branch. -/
theorem processUsage_txn (u : TokenService.UsageInput) :
    (TokenService.processUsage u).txn = TokenService.txnOf u := by
  unfold TokenService.processUsage
  split <;> rfl

/-- The balance increments of `processUsage`, by branch. -/
theorem processUsage_deltas (u : TokenService.UsageInput) :
    ((TokenService.processUsage u).consumerDelta, (TokenService.processUsage u).providerDelta)
      = if ¬ TokenService.isSelfService u.consumerId u.providerId
            ∧ 0 < TokenService.muleAmountOf u then
          (-(TokenService.muleAmountOf u),
            TokenService.updateBalancesProviderDelta u.consumerId u.providerId
              (TokenService.muleAmountOf u)
              (TokenService.platformFeeOf (TokenService.muleAmountOf u)))
        else (0, 0) := by
  unfold TokenService.processUsage
  split <;> rfl

theorem platformFeeOf_zero : TokenService.platformFeeOf 0 = 0 := by
  unfold TokenService.platformFeeOf
  rw [zero_mul, Tokenomics.toFixed6_zero]
  exact max_self 0

theorem txnOf_transactionType (u : TokenService.UsageInput) :
    (TokenService.txnOf u).transactionType =
      if TokenService.isSelfService u.consumerId u.providerId then "self_service"
      else "consumption" := rfl

theorem txnOf_providerId (u : TokenService.UsageInput) :
    (TokenService.txnOf u).providerId = u.providerId := rfl

theorem txnOf_muleAmount (u : TokenService.UsageInput) :
    (TokenService.txnOf u).muleAmount
      = Tokenomics.toFixed6 (TokenService.muleAmountOf u) := rfl

theorem txnOf_platformFee (u : TokenService.UsageInput) :
    (TokenService.txnOf u).platformFee
      = Tokenomics.toFixed6 (TokenService.platformFeeOf (TokenService.muleAmountOf u)) := rfl

/-- C1, amended: for every settled transaction of kind consumption that
carries a provider account, the amount credited to the provider plus the
recorded platform fee equals the recorded MULE amount exactly, the platform
fee is `round6(amount × 0.10)`, and the provider differs from the consumer.
(The unamended claim fails for the anonymous-provider path, where a
consumption transaction is recorded with no provider and no credit.) -/
theorem C1_consumption_settlement_amended :
    ∀ (u : TokenService.UsageInput) (p : String),
      u.providerId = some p →
      (TokenService.processUsage u).txn.transactionType = "consumption" →
      (TokenService.processUsage u).providerDelta
          + (TokenService.processUsage u).txn.platformFee
          = (TokenService.processUsage u).txn.muleAmount
      ∧ (TokenService.processUsage u).txn.platformFee
          = SpecRef.round6 ((TokenService.processUsage u).txn.muleAmount * (10 / 100))
      ∧ p ≠ u.consumerId := by
  intro u p hp htype
  have htxn := processUsage_txn u
  have hdel := processUsage_deltas u
  rw [htxn] at htype ⊢
  have hm0 : 0 ≤ TokenService.muleAmountOf u := TokenCalculator.tokensToMules_nonneg _ _
  have hmfix : Tokenomics.toFixed6 (TokenService.muleAmountOf u)
      = TokenService.muleAmountOf u := toFixed6_tokensToMules _ _
  have hfee : TokenService.platformFeeOf (TokenService.muleAmountOf u)
      = Tokenomics.toFixed6 (TokenService.muleAmountOf u * Tokenomics.platformFeeRate) :=
    platformFeeOf_eq _ hm0
  have hfeefix : Tokenomics.toFixed6 (TokenService.platformFeeOf (TokenService.muleAmountOf u))
      = TokenService.platformFeeOf (TokenService.muleAmountOf u) := by
    rw [hfee, Tokenomics.toFixed6_idem]
  have hss : TokenService.isSelfService u.consumerId u.providerId = false := by
    rcases Bool.eq_false_or_eq_true (TokenService.isSelfService u.consumerId u.providerId)
      with h | h
    · exfalso
      rw [txnOf_transactionType, h] at htype
      simp at htype
    · exact h
  have hne : u.consumerId ≠ p := by
    intro heq
    have h1 : TokenService.isSelfService u.consumerId u.providerId = true := by
      unfold TokenService.isSelfService
      rw [hp]
      simp [heq]
    rw [h1] at hss
    exact absurd hss (by decide)
  refine ⟨?_, ?_, fun h => hne h.symm⟩
  · rcases lt_or_eq_of_le hm0 with hpos | hzero
    · have hcond : ¬ TokenService.isSelfService u.consumerId u.providerId = true
          ∧ 0 < TokenService.muleAmountOf u := ⟨by simp [hss], hpos⟩
      rw [if_pos hcond] at hdel
      have hpd : (TokenService.processUsage u).providerDelta
          = TokenService.muleAmountOf u
            - TokenService.platformFeeOf (TokenService.muleAmountOf u) := by
        have h2 := congrArg Prod.snd hdel
        simp only at h2
        rw [h2]
        unfold TokenService.updateBalancesProviderDelta
        rw [hp]
        simp [hne]
      rw [hpd, txnOf_platformFee, txnOf_muleAmount, hfeefix, hmfix]
      ring
    · have hcond : ¬ (¬ TokenService.isSelfService u.consumerId u.providerId = true
          ∧ 0 < TokenService.muleAmountOf u) := by
        intro h
        rw [← hzero] at h
        exact absurd h.2 (lt_irrefl 0)
      rw [if_neg hcond] at hdel
      have hpd : (TokenService.processUsage u).providerDelta = 0 := by
        have h2 := congrArg Prod.snd hdel
        simpa using h2
      rw [hpd, txnOf_platformFee, txnOf_muleAmount, hfeefix, ← hzero, platformFeeOf_zero,
        Tokenomics.toFixed6_zero]
      ring
  · rw [txnOf_platformFee, txnOf_muleAmount, hfeefix, hmfix, hfee]
    rfl

/-- C1 counterexample: `processUsage` invoked without a provider account (the
anonymous-provider path) still records a transaction of kind consumption;
the consumer is debited 1 MULE, the recorded fee is 0.1 MULE, but nobody is
credited, so credit + fee ≠ amount and there is no provider distinct from
the consumer. -/
theorem C1_counterexample_anonymous_provider :
    (TokenService.processUsage ⟨"c", none, "medium", 500000⟩).txn.transactionType
        = "consumption"
    ∧ (TokenService.processUsage ⟨"c", none, "medium", 500000⟩).txn.providerId = none
    ∧ (TokenService.processUsage ⟨"c", none, "medium", 500000⟩).txn.muleAmount = 1
    ∧ (TokenService.processUsage ⟨"c", none, "medium", 500000⟩).txn.platformFee = 1 / 10
    ∧ (TokenService.processUsage ⟨"c", none, "medium", 500000⟩).consumerDelta = -1
    ∧ (TokenService.processUsage ⟨"c", none, "medium", 500000⟩).providerDelta = 0
    ∧ (TokenService.processUsage ⟨"c", none, "medium", 500000⟩).providerDelta
        + (TokenService.processUsage ⟨"c", none, "medium", 500000⟩).txn.platformFee
        ≠ (TokenService.processUsage ⟨"c", none, "medium", 500000⟩).txn.muleAmount := by
  have hm : TokenService.muleAmountOf ⟨"c", none, "medium", 500000⟩ = 1 := by
    show TokenCalculator.tokensToMules (500000 : ℚ) "medium" = 1
    simp [TokenCalculator.tokensToMules, Tokenomics.conversionRates]
    norm_num [Tokenomics.toFixed6, round_eq]
  have hfee : TokenService.platformFeeOf 1 = 1 / 10 := by
    simp [TokenService.platformFeeOf, Tokenomics.platformFeeRate]
    norm_num [Tokenomics.toFixed6, round_eq]
  have hfix1 : Tokenomics.toFixed6 1 = 1 := by
    norm_num [Tokenomics.toFixed6, round_eq]
  have hfix10 : Tokenomics.toFixed6 (1 / 10) = 1 / 10 := by
    norm_num [Tokenomics.toFixed6, round_eq]
  have htxn := processUsage_txn ⟨"c", none, "medium", 500000⟩
  have hdel := processUsage_deltas ⟨"c", none, "medium", 500000⟩
  rw [hm, hfee] at hdel
  have hma : (TokenService.txnOf ⟨"c", none, "medium", 500000⟩).muleAmount = 1 := by
    rw [txnOf_muleAmount, hm, hfix1]
  have hpf : (TokenService.txnOf ⟨"c", none, "medium", 500000⟩).platformFee = 1 / 10 := by
    rw [txnOf_platformFee, hm, hfee, hfix10]
  have hcond : ¬ TokenService.isSelfService "c" none = true ∧ (0 : ℚ) < 1 :=
    ⟨by simp [TokenService.isSelfService], by norm_num⟩
  rw [if_pos hcond] at hdel
  have hcd : (TokenService.processUsage ⟨"c", none, "medium", 500000⟩).consumerDelta = -1 := by
    have h2 := congrArg Prod.fst hdel
    simpa using h2
  have hpd : (TokenService.processUsage ⟨"c", none, "medium", 500000⟩).providerDelta = 0 := by
    have h2 := congrArg Prod.snd hdel
    simpa [TokenService.updateBalancesProviderDelta] using h2
  refine ⟨?_, ?_, ?_, ?_, hcd, hpd, ?_⟩
  · rw [htxn, txnOf_transactionType]
    simp [TokenService.isSelfService]
  · rw [htxn, txnOf_providerId]
  · rw [htxn, hma]
  · rw [htxn, hpf]
  · rw [htxn, hpd, hma, hpf]
    norm_num

theorem C1_witness :
    (TokenService.processUsage ⟨"alice", some "bob", "medium", 500000⟩).providerDelta
        + (TokenService.processUsage ⟨"alice", some "bob", "medium", 500000⟩).txn.platformFee
        = (TokenService.processUsage ⟨"alice", some "bob", "medium", 500000⟩).txn.muleAmount
    ∧ (TokenService.processUsage ⟨"alice", some "bob", "medium", 500000⟩).txn.platformFee
        = SpecRef.round6
            ((TokenService.processUsage ⟨"alice", some "bob", "medium", 500000⟩).txn.muleAmount
              * (10 / 100))
    ∧ "bob" ≠ "alice" :=
  C1_consumption_settlement_amended ⟨"alice", some "bob", "medium", 500000⟩ "bob" rfl
    (by rw [processUsage_txn, txnOf_transactionType]; simp [TokenService.isSelfService])

/-- C7. Settlement frame: a self-service settlement records a `self_service`
transaction carrying the computed MULE amount and moves no balance; a
settlement whose computed amount is 0 records its transaction (with amount 0)
and also moves no balance. -/
theorem C7_settlement_frame :
    (∀ (u : TokenService.UsageInput) (p : String),
      u.providerId = some p → u.consumerId = p →
      (TokenService.processUsage u).txn.transactionType = "self_service"
      ∧ (TokenService.processUsage u).txn.muleAmount
          = TokenCalculator.tokensToMules u.totalTokens u.modelTier
      ∧ (TokenService.processUsage u).consumerDelta = 0
      ∧ (TokenService.processUsage u).providerDelta = 0)
    ∧ (∀ u : TokenService.UsageInput,
      TokenCalculator.tokensToMules u.totalTokens u.modelTier = 0 →
      (TokenService.processUsage u).txn.muleAmount = 0
      ∧ (TokenService.processUsage u).consumerDelta = 0
      ∧ (TokenService.processUsage u).providerDelta = 0) := by
  constructor
  · intro u p hp heq
    have hss : TokenService.isSelfService u.consumerId u.providerId = true := by
      unfold TokenService.isSelfService
      rw [hp]
      simp [heq]
    have htxn := processUsage_txn u
    have hdel := processUsage_deltas u
    have hcond : ¬ (¬ TokenService.isSelfService u.consumerId u.providerId = true
        ∧ 0 < TokenService.muleAmountOf u) := by
      intro h
      exact h.1 hss
    rw [if_neg hcond] at hdel
    have hcd := congrArg Prod.fst hdel
    have hpd := congrArg Prod.snd hdel
    simp only at hcd hpd
    refine ⟨?_, ?_, hcd, hpd⟩
    · rw [htxn, txnOf_transactionType]
      simp [hss]
    · rw [htxn, txnOf_muleAmount]
      exact toFixed6_tokensToMules _ _
  · intro u hm
    have hm2 : TokenService.muleAmountOf u = 0 := hm
    have htxn := processUsage_txn u
    have hdel := processUsage_deltas u
    have hcond : ¬ (¬ TokenService.isSelfService u.consumerId u.providerId = true
        ∧ 0 < TokenService.muleAmountOf u) := by
      intro h
      rw [hm2] at h
      exact absurd h.2 (lt_irrefl 0)
    rw [if_neg hcond] at hdel
    have hcd := congrArg Prod.fst hdel
    have hpd := congrArg Prod.snd hdel
    simp only at hcd hpd
    refine ⟨?_, hcd, hpd⟩
    rw [htxn, txnOf_muleAmount, hm2]
    exact Tokenomics.toFixed6_zero

theorem C7_witness :
    ((TokenService.processUsage ⟨"a", some "a", "medium", 500000⟩).txn.transactionType
        = "self_service"
      ∧ (TokenService.processUsage ⟨"a", some "a", "medium", 500000⟩).txn.muleAmount
          = TokenCalculator.tokensToMules 500000 "medium"
      ∧ (TokenService.processUsage ⟨"a", some "a", "medium", 500000⟩).consumerDelta = 0
      ∧ (TokenService.processUsage ⟨"a", some "a", "medium", 500000⟩).providerDelta = 0)
    ∧ ((TokenService.processUsage ⟨"a", some "b", "small", 0⟩).txn.muleAmount = 0
      ∧ (TokenService.processUsage ⟨"a", some "b", "small", 0⟩).consumerDelta = 0
      ∧ (TokenService.processUsage ⟨"a", some "b", "small", 0⟩).providerDelta = 0) :=
  ⟨C7_settlement_frame.1 ⟨"a", some "a", "medium", 500000⟩ "a" rfl rfl,
   C7_settlement_frame.2 ⟨"a", some "b", "small", 0⟩
    (by simp [TokenCalculator.tokensToMules, Tokenomics.conversionRates, Tokenomics.toFixed6])⟩

/-- C3. The pure conversion operations against the spec's reference
definitions, amended: the source's `mulesToTokens` also clamps a negative
MULE amount to 0, so the reference equation `floor(m × rate)` holds for
`m ≥ 0`; `tokensToMules` agrees with the clamped reference on all inputs.
The rates are small 10⁶, medium 5·10⁵, large 2.5·10⁵, xl 1.25·10⁵ tokens per
MULE, and the two quoted values hold. -/
theorem C3_conversion_refinement_amended :
    (∀ (n : ℚ) (t : String) (r : ℚ), Tokenomics.conversionRates t = some r →
      TokenCalculator.tokensToMules n t = SpecRef.tokens_to_mules n r)
    ∧ (∀ (m : ℚ) (t : String) (r : ℚ), 0 ≤ m →
      Tokenomics.conversionRates t = some r →
      TokenCalculator.mulesToTokens m t = SpecRef.mules_to_tokens m r)
    ∧ Tokenomics.conversionRates "small" = some 1000000
    ∧ Tokenomics.conversionRates "medium" = some 500000
    ∧ Tokenomics.conversionRates "large" = some 250000
    ∧ Tokenomics.conversionRates "xl" = some 125000
    ∧ TokenCalculator.tokensToMules 500000 "medium" = 1
    ∧ TokenCalculator.tokensToMules 1 "small" = 1 / 1000000 := by
  refine ⟨?_, ?_, rfl, rfl, rfl, rfl, ?_, ?_⟩
  · intro n t r hr
    unfold TokenCalculator.tokensToMules SpecRef.tokens_to_mules
    rw [hr]
    rcases lt_or_ge n 0 with hn | hn
    · rw [if_pos hn, if_pos hn]
    · rw [if_neg (not_lt.mpr hn), if_neg (not_lt.mpr hn)]
      rfl
  · intro m t r hm hr
    unfold TokenCalculator.mulesToTokens SpecRef.mules_to_tokens
    rw [if_neg (not_lt.mpr hm), hr]
  · simp [TokenCalculator.tokensToMules, Tokenomics.conversionRates]
    norm_num [Tokenomics.toFixed6, round_eq]
  · simp [TokenCalculator.tokensToMules, Tokenomics.conversionRates]
    norm_num [Tokenomics.toFixed6, round_eq]

/-- C3 counterexample: the claim's unclamped reference
`mules_to_tokens(m, tier) = floor(m × rate)` fails at `m = −1` on tier
small, where the source clamps to 0. -/
theorem C3_counterexample_negative_mules :
    TokenCalculator.mulesToTokens (-1) "small" = 0
    ∧ SpecRef.mules_to_tokens (-1) 1000000 = -1000000
    ∧ Tokenomics.conversionRates "small" = some 1000000
    ∧ TokenCalculator.mulesToTokens (-1) "small" ≠ SpecRef.mules_to_tokens (-1) 1000000 := by
  refine ⟨?_, ?_, rfl, ?_⟩
  · simp [TokenCalculator.mulesToTokens]
  · unfold SpecRef.mules_to_tokens
    norm_num
  · unfold TokenCalculator.mulesToTokens SpecRef.mules_to_tokens
    norm_num

theorem C3_witness :
    TokenCalculator.tokensToMules 3 "small" = SpecRef.tokens_to_mules 3 1000000
    ∧ TokenCalculator.mulesToTokens (1 / 2) "small" = SpecRef.mules_to_tokens (1 / 2) 1000000 :=
  ⟨C3_conversion_refinement_amended.1 3 "small" 1000000 rfl,
   C3_conversion_refinement_amended.2.1 (1 / 2) "small" 1000000 (by norm_num) rfl⟩

/-- C4. Fee operations, amended: the platform fee used by settlement equals
the spec's `round6(m × 0.10)` for every non-negative MULE amount (and is
0.100000 at m = 1, so the provider side of settlement keeps 0.900000 of
1 MULE); but the source's `calculateProviderEarnings` is a function of a
token count and tier and applies no final rounding — it returns
`tokensToMules(tokens, tier) × (1 − 0.10)` as is. -/
theorem C4_fee_operations_amended :
    (∀ (m : ℚ), 0 ≤ m → TokenService.platformFeeOf m = SpecRef.platform_fee m)
    ∧ TokenService.platformFeeOf 1 = 1 / 10
    ∧ (1 : ℚ) - TokenService.platformFeeOf 1 = 9 / 10
    ∧ (∀ (tokens : ℚ) (tier : String),
      TokenCalculator.calculateProviderEarnings tokens tier
        = TokenCalculator.tokensToMules tokens tier * (1 - 10 / 100))
    ∧ TokenCalculator.calculateProviderEarnings 500000 "medium" = 9 / 10 := by
  refine ⟨?_, ?_, ?_, ?_, ?_⟩
  · intro m hm
    rw [platformFeeOf_eq m hm]
    rfl
  · simp [TokenService.platformFeeOf, Tokenomics.platformFeeRate]
    norm_num [Tokenomics.toFixed6, round_eq]
  · simp [TokenService.platformFeeOf, Tokenomics.platformFeeRate]
    norm_num [Tokenomics.toFixed6, round_eq]
  · intro tokens tier
    rfl
  · simp [TokenCalculator.calculateProviderEarnings, TokenCalculator.tokensToMules,
      Tokenomics.conversionRates, Tokenomics.platformFeeRate]
    norm_num [Tokenomics.toFixed6, round_eq]

/-- C4 counterexample: `provider_earnings(m) = round6(m × 0.9)` fails on the
source at m = 0.000001 MULE (tokens = 1, tier small): the source returns the
unrounded 0.0000009 while the spec's reference rounds to 0.000001. -/
theorem C4_counterexample_unrounded_earnings :
    TokenCalculator.tokensToMules 1 "small" = 1 / 1000000
    ∧ TokenCalculator.calculateProviderEarnings 1 "small" = 9 / 10000000
    ∧ SpecRef.provider_earnings (TokenCalculator.tokensToMules 1 "small") = 1 / 1000000
    ∧ TokenCalculator.calculateProviderEarnings 1 "small"
      ≠ SpecRef.provider_earnings (TokenCalculator.tokensToMules 1 "small") := by
  have h1 : TokenCalculator.tokensToMules 1 "small" = 1 / 1000000 := by
    simp [TokenCalculator.tokensToMules, Tokenomics.conversionRates]
    norm_num [Tokenomics.toFixed6, round_eq]
  have h2 : TokenCalculator.calculateProviderEarnings 1 "small" = 9 / 10000000 := by
    simp [TokenCalculator.calculateProviderEarnings, h1, Tokenomics.platformFeeRate]
    norm_num
  have h3 : SpecRef.provider_earnings (TokenCalculator.tokensToMules 1 "small") = 1 / 1000000 := by
    rw [h1]
    simp [SpecRef.provider_earnings, SpecRef.round6]
    norm_num [round_eq]
  exact ⟨h1, h2, h3, by rw [h2, h3]; norm_num⟩

theorem C4_witness :
    TokenService.platformFeeOf (3 / 10) = SpecRef.platform_fee (3 / 10) :=
  C4_fee_operations_amended.1 (3 / 10) (by norm_num)

/-- C5. Round trip: for each configured tier the conversion rate divides 10⁶,
so `tokens_to_mules` is exact and `mules_to_tokens` recovers the token count;
hence the round trip is at most n with residual 0 < rate/10⁶. -/
theorem C5_roundtrip :
    ∀ (t : String), t ∈ (["small", "medium", "large", "xl"] : List String) →
    ∀ (r : ℚ), Tokenomics.conversionRates t = some r →
    ∀ (n : ℕ),
      TokenCalculator.mulesToTokens (TokenCalculator.tokensToMules (n : ℚ) t) t ≤ (n : ℚ)
      ∧ (n : ℚ) - TokenCalculator.mulesToTokens (TokenCalculator.tokensToMules (n : ℚ) t) t
          < r / 1000000 := by
  intro t ht r hr n
  fin_cases ht
  · have hr1 : r = 1000000 := (Option.some.inj (hr : some (1000000 : ℚ) = some r)).symm
    subst hr1
    rw [roundtrip_exact "small" 1000000 1 rfl (by norm_num) (by norm_num) n]
    exact ⟨le_refl _, by norm_num⟩
  · have hr1 : r = 500000 := (Option.some.inj (hr : some (500000 : ℚ) = some r)).symm
    subst hr1
    rw [roundtrip_exact "medium" 500000 2 rfl (by norm_num) (by norm_num) n]
    exact ⟨le_refl _, by norm_num⟩
  · have hr1 : r = 250000 := (Option.some.inj (hr : some (250000 : ℚ) = some r)).symm
    subst hr1
    rw [roundtrip_exact "large" 250000 4 rfl (by norm_num) (by norm_num) n]
    exact ⟨le_refl _, by norm_num⟩
  · have hr1 : r = 125000 := (Option.some.inj (hr : some (125000 : ℚ) = some r)).symm
    subst hr1
    rw [roundtrip_exact "xl" 125000 8 rfl (by norm_num) (by norm_num) n]
    exact ⟨le_refl _, by norm_num⟩

theorem C5_witness :
    TokenCalculator.mulesToTokens (TokenCalculator.tokensToMules (7 : ℕ) "small") "small" ≤ ((7 : ℕ) : ℚ)
    ∧ ((7 : ℕ) : ℚ) - TokenCalculator.mulesToTokens (TokenCalculator.tokensToMules (7 : ℕ) "small") "small"
        < 1000000 / 1000000 :=
  C5_roundtrip "small" (by decide) 1000000 rfl 7

/-- Any of the two middle pieces of a five-part concatenation occurs as a
substring of the whole. -/
theorem strIncludes_five_parts (a b c d e : String) :
    Str.strIncludes (a ++ b ++ c ++ d ++ e) b = true
    ∧ Str.strIncludes (a ++ b ++ c ++ d ++ e) d = true := by
  constructor
  · unfold Str.strIncludes
    simp only [String.data_append, List.append_assoc]
    exact Str.containsSub_append_left _ _ _ (Str.containsSub_of_head _ _)
  · unfold Str.strIncludes
    simp only [String.data_append, List.append_assoc]
    exact Str.containsSub_append_left _ _ _
      (Str.containsSub_append_left _ _ _
        (Str.containsSub_append_left _ _ _ (Str.containsSub_of_head _ _)))

/-- C6, amended: whenever the consumer's balance is strictly below the
estimated cost (computed from `max_tokens` when provided and non-zero, else
the context window), the pre-check throws `INSUFFICIENT_BALANCE` whose own
message includes the required and available amounts, the request is answered
with HTTP 402 / code `insufficient_balance` and is never forwarded — but the
HTTP response body carries the fixed message "Insufficient balance to
process request", without the amounts. -/
theorem C6_insufficient_balance_amended :
    ∀ (bal : ℚ) (mt : Option ℚ) (ctx : ℚ) (tier : String),
      bal < llmController.estimatedCostOf mt ctx tier →
      ∃ e : llmController.ThrownError,
        llmController.preCheck bal mt ctx tier = some e
        ∧ e.code = "INSUFFICIENT_BALANCE"
        ∧ Str.strIncludes e.message
            (llmController.toFixed6Str (llmController.estimatedCostOf mt ctx tier)) = true
        ∧ Str.strIncludes e.message (llmController.toFixed6Str bal) = true
        ∧ llmController.balanceStage bal mt ctx tier
            = .rejected (llmController.handleError e)
        ∧ (llmController.handleError e).status = 402
        ∧ (llmController.handleError e).errCode = "insufficient_balance"
        ∧ (llmController.handleError e).message
            = "Insufficient balance to process request" := by
  intro bal mt ctx tier h
  have hpre : llmController.preCheck bal mt ctx tier
      = some { code := "INSUFFICIENT_BALANCE"
               message := llmController.insufficientMessage
                 (llmController.estimatedCostOf mt ctx tier) bal } := by
    unfold llmController.preCheck
    rw [if_pos h]
  refine ⟨_, hpre, rfl, ?_, ?_, ?_, rfl, rfl, rfl⟩
  · exact (strIncludes_five_parts "Insufficient balance. Required: "
      (llmController.toFixed6Str (llmController.estimatedCostOf mt ctx tier))
      " MULE, Available: " (llmController.toFixed6Str bal) " MULE").1
  · exact (strIncludes_five_parts "Insufficient balance. Required: "
      (llmController.toFixed6Str (llmController.estimatedCostOf mt ctx tier))
      " MULE, Available: " (llmController.toFixed6Str bal) " MULE").2
  · unfold llmController.balanceStage
    rw [hpre]

/-- The estimate for `max_tokens = 1,000,000` on tier small is exactly
1 MULE. -/
theorem estimatedCost_million_small :
    llmController.estimatedCostOf (some 1000000) 4096 "small" = 1 := by
  show TokenCalculator.tokensToMules (llmController.estimatedTokensOf (some 1000000) 4096) "small" = 1
  have he : llmController.estimatedTokensOf (some 1000000) 4096 = 1000000 := by
    unfold llmController.estimatedTokensOf
    norm_num
  rw [he]
  simp [TokenCalculator.tokensToMules, Tokenomics.conversionRates]
  norm_num [Tokenomics.toFixed6, round_eq]

/-- C6 counterexample: in the 0.5-MULE / max_tokens 10⁶ / tier-small
scenario the HTTP response message is the static string, which contains
neither the required (1.000000) nor the available (0.500000) amount; and the
pre-check estimate falls back to the context window when `max_tokens = 0` is
provided (it does not use `tokens_to_mules(0) = 0`, which would pass every
balance). -/
theorem C6_counterexample_http_message :
    (llmController.preCheck (1 / 2) (some 1000000) 4096 "small").isSome = true
    ∧ (llmController.handleError
        { code := "INSUFFICIENT_BALANCE"
          message := llmController.insufficientMessage 1 (1 / 2) }).message
        = "Insufficient balance to process request"
    ∧ Str.strIncludes "Insufficient balance to process request" "1.000000" = false
    ∧ Str.strIncludes "Insufficient balance to process request" "0.500000" = false
    ∧ llmController.toFixed6Str 1 = "1.000000"
    ∧ llmController.toFixed6Str (1 / 2) = "0.500000"
    ∧ (llmController.preCheck 0 (some 0) 8192 "medium").isSome = true
    ∧ TokenCalculator.tokensToMules 0 "medium" = 0 := by
  have h1 : (1 : ℚ) / 2 < llmController.estimatedCostOf (some 1000000) 4096 "small" := by
    rw [estimatedCost_million_small]
    norm_num
  have hr1 : round ((1 : ℚ) * 1000000) = 1000000 := by
    norm_num [round_eq]
  have hr2 : round ((1 : ℚ) / 2 * 1000000) = 500000 := by
    norm_num [round_eq]
  have h2 : llmController.estimatedCostOf (some 0) 8192 "medium" = 2048 / 125000 := by
    show TokenCalculator.tokensToMules (llmController.estimatedTokensOf (some 0) 8192) "medium"
      = 2048 / 125000
    have he : llmController.estimatedTokensOf (some 0) 8192 = 8192 := by
      unfold llmController.estimatedTokensOf
      norm_num
    rw [he]
    simp [TokenCalculator.tokensToMules, Tokenomics.conversionRates]
    norm_num [Tokenomics.toFixed6, round_eq]
  refine ⟨?_, rfl, by decide, by decide, ?_, ?_, ?_, ?_⟩
  · unfold llmController.preCheck
    rw [if_pos h1]
    rfl
  · unfold llmController.toFixed6Str
    rw [hr1]
    rfl
  · unfold llmController.toFixed6Str
    rw [hr2]
    rfl
  · unfold llmController.preCheck
    rw [if_pos (by rw [h2]; norm_num : (0 : ℚ) < llmController.estimatedCostOf (some 0) 8192 "medium")]
    rfl
  · simp [TokenCalculator.tokensToMules, Tokenomics.conversionRates, Tokenomics.toFixed6]

theorem C6_witness :
    ∃ e : llmController.ThrownError,
      llmController.preCheck (1 / 2) (some 1000000) 4096 "small" = some e
      ∧ e.code = "INSUFFICIENT_BALANCE"
      ∧ Str.strIncludes e.message
          (llmController.toFixed6Str
            (llmController.estimatedCostOf (some 1000000) 4096 "small")) = true
      ∧ Str.strIncludes e.message (llmController.toFixed6Str (1 / 2)) = true
      ∧ llmController.balanceStage (1 / 2) (some 1000000) 4096 "small"
          = .rejected (llmController.handleError e)
      ∧ (llmController.handleError e).status = 402
      ∧ (llmController.handleError e).errCode = "insufficient_balance"
      ∧ (llmController.handleError e).message
          = "Insufficient balance to process request" :=
  C6_insufficient_balance_amended (1 / 2) (some 1000000) 4096 "small"
    (by rw [estimatedCost_million_small]; norm_num)

/-- The `reduce` of `_selectOptimalProvider` returns the first candidate of
maximal score: every candidate scores no higher, and every candidate strictly
before the returned one scores strictly lower. -/
theorem foldl_betterOf_spec :
    ∀ (tl : List ProviderManager.ScoredProvider) (hd : ProviderManager.ScoredProvider),
      (∀ x ∈ hd :: tl, x.score ≤ (tl.foldl ProviderManager.betterOf hd).score)
      ∧ ∃ i, (hd :: tl).get? i = some (tl.foldl ProviderManager.betterOf hd)
          ∧ ∀ j y, j < i → (hd :: tl).get? j = some y
              → y.score < (tl.foldl ProviderManager.betterOf hd).score := by
  intro tl
  induction tl with
  | nil =>
    intro hd
    constructor
    · intro x hx
      have hx2 : x = hd := by simpa using hx
      subst hx2
      exact le_refl _
    · exact ⟨0, rfl, fun j y hj _ => absurd hj (Nat.not_lt_zero j)⟩
  | cons a tl ih =>
    intro hd
    have hfold : (a :: tl).foldl ProviderManager.betterOf hd
        = tl.foldl ProviderManager.betterOf (ProviderManager.betterOf hd a) := rfl
    rcases ih (ProviderManager.betterOf hd a) with ⟨ihle, i0, hi0, hstrict⟩
    by_cases hba : hd.score < a.score
    · have hb : ProviderManager.betterOf hd a = a := by
        unfold ProviderManager.betterOf
        rw [if_pos hba]
      rw [hb] at ihle hi0 hstrict
      constructor
      · intro x hx
        rw [hfold, hb]
        rcases List.mem_cons.mp hx with hx1 | hx2
        · subst hx1
          exact le_of_lt (lt_of_lt_of_le hba (ihle a (List.mem_cons_self a tl)))
        · exact ihle x hx2
      · refine ⟨i0 + 1, ?_, ?_⟩
        · rw [hfold, hb]
          simpa using hi0
        · intro j y hj hy
          rw [hfold, hb]
          cases j with
          | zero =>
            have hyhd : y = hd := by
              have := hy
              simp at this
              exact this.symm
            subst hyhd
            exact lt_of_lt_of_le hba (ihle a (List.mem_cons_self a tl))
          | succ j' =>
            have hj' : j' < i0 := Nat.lt_of_succ_lt_succ hj
            have hy' : (a :: tl).get? j' = some y := by simpa using hy
            exact hstrict j' y hj' hy'
    · have hb : ProviderManager.betterOf hd a = hd := by
        unfold ProviderManager.betterOf
        rw [if_neg hba]
      rw [hb] at ihle hi0 hstrict
      have hale : a.score ≤ hd.score := le_of_not_lt hba
      constructor
      · intro x hx
        rw [hfold, hb]
        rcases List.mem_cons.mp hx with hx1 | hx2
        · subst hx1
          exact ihle x (List.mem_cons_self x tl)
        rcases List.mem_cons.mp hx2 with hx3 | hx4
        · subst hx3
          exact le_trans hale (ihle hd (List.mem_cons_self hd tl))
        · exact ihle x (List.mem_cons_of_mem hd hx4)
      · cases i0 with
        | zero =>
          refine ⟨0, ?_, fun j y hj _ => absurd hj (Nat.not_lt_zero j)⟩
          rw [hfold, hb]
          simpa using hi0
        | succ k =>
          refine ⟨k + 2, ?_, ?_⟩
          · rw [hfold, hb]
            simpa using hi0
          · intro j y hj hy
            rw [hfold, hb]
            match j, hj, hy with
            | 0, hj, hy =>
              have hyhd : y = hd := by
                have := hy
                simp at this
                exact this.symm
              subst hyhd
              exact hstrict 0 y (Nat.succ_pos k) rfl
            | 1, hj, hy =>
              have hya : y = a := by
                have := hy
                simp at this
                exact this.symm
              subst hya
              have hhd : hd.score < (tl.foldl ProviderManager.betterOf hd).score :=
                hstrict 0 hd (Nat.succ_pos k) rfl
              exact lt_of_le_of_lt hale hhd
            | (j' + 2), hj, hy =>
              have hj' : j' + 1 < k + 1 := Nat.lt_of_succ_lt_succ hj
              have hy' : (hd :: tl).get? (j' + 1) = some y := by simpa using hy
              exact hstrict (j' + 1) y hj' hy'

/-- C8. Provider selection scoring: the score of a candidate is
`0.6·(1 − load/5) + 0.4·min(tps/100, 1)` with `tps` the mean of the rolling
window (0 if empty); `_selectOptimalProvider` returns the candidate with the
highest score, keeping the earliest on an exact tie; and in the quoted
scenario P1 (in_flight 3, tps 40) scores 0.40, P2 (in_flight 0, tps 10)
scores 0.64, and P2 is selected. -/
theorem C8_provider_scoring :
    (∀ load tps : ℚ, ProviderManager.calculateProviderScore load tps
        = (6 / 10) * (1 - load / 5) + (4 / 10) * min (tps / 100) 1)
    ∧ (∀ (hd : ProviderManager.ScoredProvider) (tl : List ProviderManager.ScoredProvider),
        ProviderManager.selectOptimalProvider (hd :: tl)
            = some (tl.foldl ProviderManager.betterOf hd)
        ∧ (∀ x ∈ hd :: tl, x.score ≤ (tl.foldl ProviderManager.betterOf hd).score)
        ∧ ∃ i, (hd :: tl).get? i = some (tl.foldl ProviderManager.betterOf hd)
            ∧ ∀ j y, j < i → (hd :: tl).get? j = some y
                → y.score < (tl.foldl ProviderManager.betterOf hd).score)
    ∧ (ProviderManager.scoreCandidate "P1" 3 [40]).score = 2 / 5
    ∧ (ProviderManager.scoreCandidate "P2" 0 [10]).score = 16 / 25
    ∧ ProviderManager.selectOptimalProvider
        [ProviderManager.scoreCandidate "P1" 3 [40], ProviderManager.scoreCandidate "P2" 0 [10]]
        = some (ProviderManager.scoreCandidate "P2" 0 [10]) := by
  have hs1 : (ProviderManager.scoreCandidate "P1" 3 [40]).score = 2 / 5 := by
    show ProviderManager.calculateProviderScore 3 (ProviderManager.getProviderPerformance [40])
      = 2 / 5
    have hp : ProviderManager.getProviderPerformance [40] = 40 := by
      simp [ProviderManager.getProviderPerformance, ProviderManager.recentHistory]
    rw [hp]
    unfold ProviderManager.calculateProviderScore ProviderManager.loadBalancingThreshold
    rw [min_eq_left (by norm_num : (40 : ℚ) / 100 ≤ 1)]
    norm_num
  have hs2 : (ProviderManager.scoreCandidate "P2" 0 [10]).score = 16 / 25 := by
    show ProviderManager.calculateProviderScore 0 (ProviderManager.getProviderPerformance [10])
      = 16 / 25
    have hp : ProviderManager.getProviderPerformance [10] = 10 := by
      simp [ProviderManager.getProviderPerformance, ProviderManager.recentHistory]
    rw [hp]
    unfold ProviderManager.calculateProviderScore ProviderManager.loadBalancingThreshold
    rw [min_eq_left (by norm_num : (10 : ℚ) / 100 ≤ 1)]
    norm_num
  refine ⟨?_, ?_, hs1, hs2, ?_⟩
  · intro load tps
    unfold ProviderManager.calculateProviderScore ProviderManager.loadBalancingThreshold
    ring
  · intro hd tl
    exact ⟨rfl, (foldl_betterOf_spec tl hd).1, (foldl_betterOf_spec tl hd).2⟩
  · show some (ProviderManager.betterOf (ProviderManager.scoreCandidate "P1" 3 [40])
        (ProviderManager.scoreCandidate "P2" 0 [10]))
      = some (ProviderManager.scoreCandidate "P2" 0 [10])
    unfold ProviderManager.betterOf
    rw [hs1, hs2, if_pos (by norm_num)]

theorem C8_witness :
    ProviderManager.calculateProviderScore 3 40
      = (6 / 10) * (1 - 3 / 5) + (4 / 10) * min ((40 : ℚ) / 100) 1 :=
  C8_provider_scoring.1 3 40

/-- The counter maps before any provider connects. -/
def initialCounters : ProviderManager.CounterState :=
  { requestQueue := fun _ => none, requestCounts := fun _ => none }

/-- C9 (code bug): after registering provider p1, routing one request to it
and letting that request time out, the in-flight counter `requestQueue[p1]`
consulted by the eligibility filter is still 1 (not its pre-route value 0):
the timeout handler decrements the legacy `requestCounts` map (which stays at
0 through its `|| 1` default) instead of `requestQueue`, and the send-failure
path decrements nothing. The completion path, by contrast, restores
`requestQueue[p1]` to 0 as the claim requires. -/
theorem C9_inflight_bookkeeping_bug :
    (ProviderManager.registerStep initialCounters "p1").requestQueue "p1" = none
    ∧ (ProviderManager.registerStep initialCounters "p1").requestCounts "p1" = some 0
    ∧ (ProviderManager.selectStep (ProviderManager.registerStep initialCounters "p1") "p1").requestQueue "p1"
        = some 1
    ∧ (ProviderManager.timeoutStep
        (ProviderManager.selectStep (ProviderManager.registerStep initialCounters "p1") "p1")
        "p1").requestQueue "p1" = some 1
    ∧ (ProviderManager.timeoutStep
        (ProviderManager.selectStep (ProviderManager.registerStep initialCounters "p1") "p1")
        "p1").requestCounts "p1" = some 0
    ∧ (ProviderManager.sendFailStep
        (ProviderManager.selectStep (ProviderManager.registerStep initialCounters "p1") "p1")).requestQueue "p1"
        = some 1
    ∧ (ProviderManager.completionStep
        (ProviderManager.selectStep (ProviderManager.registerStep initialCounters "p1") "p1")
        "p1").requestQueue "p1" = some 0 := by
  refine ⟨rfl, rfl, ?_, ?_, ?_, ?_, ?_⟩ <;> decide

/-- C10. Classifier defaults at the public interface: null/undefined, the
empty string, and an object with neither `name` nor `id` all yield the
medium default record (tier medium, type llm, context 8192); an object with
a `name` or `id` field is classified exactly as the extracted string. -/
theorem C10_classifier_defaults :
    ModelManager.getModelInfo .jnull
        = some (ModelManager.createModelInfo (.tstr "medium"))
    ∧ ModelManager.getModelInfo (.jstr "")
        = some (ModelManager.createModelInfo (.tstr "medium"))
    ∧ ModelManager.getModelInfo (.jobj none none)
        = some (ModelManager.createModelInfo (.tstr "medium"))
    ∧ (ModelManager.createModelInfo (.tstr "medium")).tier = .tstr "medium"
    ∧ (ModelManager.createModelInfo (.tstr "medium")).type = "llm"
    ∧ (ModelManager.createModelInfo (.tstr "medium")).context = 8192
    ∧ ∀ (name id : Option String),
        ModelManager.getModelInfo (.jobj name id)
          = ModelManager.getModelInfo (.jstr (ModelManager.extractModelName name id)) := by
  refine ⟨rfl, rfl, by decide, rfl, rfl, rfl, ?_⟩
  intro name id
  show ModelManager.getModelInfoStr (ModelManager.extractModelName name id)
    = ModelManager.getModelInfo (.jstr (ModelManager.extractModelName name id))
  by_cases h : ModelManager.extractModelName name id = ""
  · rw [h]
    decide
  · show ModelManager.getModelInfoStr (ModelManager.extractModelName name id)
      = if ModelManager.extractModelName name id = "" then
          some (ModelManager.createModelInfo (.tstr "medium"))
        else ModelManager.getModelInfoStr (ModelManager.extractModelName name id)
    rw [if_neg h]

/-- Every tier produced by the size-pattern loop is one of the four tier
strings. -/
theorem tierOfPatterns_mem (cs : List Char) (t : String)
    (h : ModelManager.tierOfPatterns cs = some t) :
    t ∈ (["small", "medium", "large", "xl"] : List String) := by
  unfold ModelManager.tierOfPatterns at h
  split_ifs at h <;> (injection h with h2; subst h2; decide)

/-- Every string entry of the family table is one of the four tier strings. -/
theorem modelFamilies_ftier_mem (f t : String)
    (h : ModelManager.modelFamilies f = some (.ftier t)) :
    t ∈ (["small", "medium", "large", "xl"] : List String) := by
  unfold ModelManager.modelFamilies at h
  split_ifs at h <;> simp_all

/-- Every hit in a nested family table is the phi-3 object or one of the
four tier strings. -/
theorem nestedVariantLookup_shape (fv : ModelManager.FamilyVal) (v : String)
    (r : ModelManager.VariantVal) (h : ModelManager.nestedVariantLookup fv v = some r) :
    r = .vnested
    ∨ ∃ t, t ∈ (["small", "medium", "large", "xl"] : List String) ∧ r = .vtier t := by
  cases fv <;> simp only [ModelManager.nestedVariantLookup] at h
  · simp at h
  · unfold ModelManager.phiVariants at h
    split_ifs at h <;> first
      | exact Or.inl (Option.some.inj h).symm
      | exact Or.inr ⟨"small", by decide, (Option.some.inj h).symm⟩
      | exact Or.inr ⟨"large", by decide, (Option.some.inj h).symm⟩
  · unfold ModelManager.llama2Variants at h
    split_ifs at h <;> first
      | exact Or.inr ⟨"medium", by decide, (Option.some.inj h).symm⟩
      | exact Or.inr ⟨"xl", by decide, (Option.some.inj h).symm⟩
  · unfold ModelManager.vicunaVariants at h
    split_ifs at h <;>
      exact Or.inr ⟨"medium", by decide, (Option.some.inj h).symm⟩

/-- A hit through a nested family entry yields the phi-3 pass-through record
or a record over one of the four tier strings. -/
theorem variantResult_shape (fv : ModelManager.FamilyVal) (low : String)
    (r : ModelManager.ModelInfo) (h : ModelManager.variantResult fv low = some r) :
    r = ModelManager.createModelInfo .tobj
    ∨ ∃ t, t ∈ (["small", "medium", "large", "xl"] : List String)
        ∧ r = ModelManager.createModelInfo (.tstr t) := by
  unfold ModelManager.variantResult at h
  rcases hv : ModelManager.variantOf low with _ | v <;> rw [hv] at h
  · exact Option.noConfusion h
  · have h2 : (if v = "" then none
        else
          match ModelManager.nestedVariantLookup fv v with
          | some (.vtier t) => some (ModelManager.createModelInfo (.tstr t))
          | some .vnested => some (ModelManager.createModelInfo .tobj)
          | none => none) = some r := h
    by_cases hve : v = ""
    · rw [if_pos hve] at h2
      exact Option.noConfusion h2
    · rw [if_neg hve] at h2
      rcases hnl : ModelManager.nestedVariantLookup fv v with _ | rv
      · rw [hnl] at h2
        exact Option.noConfusion h2
      · rcases nestedVariantLookup_shape fv v rv hnl with h1 | ⟨t, ht, h1⟩
        · subst h1
          rw [hnl] at h2
          exact Or.inl (Option.some.inj h2).symm
        · subst h1
          rw [hnl] at h2
          exact Or.inr ⟨t, ht, (Option.some.inj h2).symm⟩

/-- A hit in the family block yields the phi-3 pass-through record or a
record over one of the four tier strings. -/
theorem familyResult_shape (low : String) (r : ModelManager.ModelInfo)
    (h : ModelManager.familyResult low = some r) :
    r = ModelManager.createModelInfo .tobj
    ∨ ∃ t, t ∈ (["small", "medium", "large", "xl"] : List String)
        ∧ r = ModelManager.createModelInfo (.tstr t) := by
  unfold ModelManager.familyResult at h
  rcases hmf : ModelManager.modelFamilies (ModelManager.familyOf low) with _ | e
    <;> rw [hmf] at h
  · simp at h
  · cases e with
    | ftier t =>
      exact Or.inr ⟨t, modelFamilies_ftier_mem _ _ hmf, (Option.some.inj h).symm⟩
    | fphi => exact variantResult_shape _ _ _ h
    | fllama2 => exact variantResult_shape _ _ _ h
    | fvicuna => exact variantResult_shape _ _ _ h

/-- The no-pipe classifier path always yields a record over one of the four
tier strings, or the phi-3 pass-through record. -/
theorem classifyLow_shape (low : String) :
    (∃ t, t ∈ (["small", "medium", "large", "xl"] : List String)
        ∧ ModelManager.classifyLow low = ModelManager.createModelInfo (.tstr t))
    ∨ ModelManager.classifyLow low = ModelManager.createModelInfo .tobj := by
  unfold ModelManager.classifyLow
  by_cases h1 : low ∈ (["small", "medium", "large", "xl"] : List String)
  · rw [if_pos h1]
    exact Or.inl ⟨low, h1, rfl⟩
  · rw [if_neg h1]
    by_cases h2 : Str.strIncludes low "mini" = true
    · rw [if_pos h2]
      exact Or.inl ⟨"small", by decide, rfl⟩
    · rw [if_neg h2]
      rcases hf : ModelManager.familyResult low with _ | info
      · rcases hp : ModelManager.tierOfPatterns low.data with _ | t
        · exact Or.inl ⟨"medium", by decide, rfl⟩
        · exact Or.inl ⟨t, tierOfPatterns_mem _ _ hp, rfl⟩
      · rcases familyResult_shape _ _ hf with h3 | ⟨t, ht, h3⟩
        · exact Or.inr h3
        · exact Or.inl ⟨t, ht, h3⟩

/-- C2, amended: `getModelInfo` is total (the embedding is a total function,
so it cannot throw), and on every identifier without a `|` it returns a
record whose tier is one of small, medium, large, xl — except the phi-3
family variant, whose record carries the raw nested family table as its
tier. A combined `<tier>|<substring>` selector may instead resolve to null
(no record): `getModelInfo` returns null only when the classified string
contains a `|`. -/
theorem C2_classifier_total_amended :
    (∀ s : String,
      (∃ t, t ∈ (["small", "medium", "large", "xl"] : List String)
          ∧ ModelManager.classifyNoPipe s = ModelManager.createModelInfo (.tstr t))
      ∨ ModelManager.classifyNoPipe s = ModelManager.createModelInfo .tobj)
    ∧ (∀ arg : ModelManager.JSModelArg,
      ModelManager.getModelInfo arg = none →
      Str.containsChar (ModelManager.argString arg) '|' = true) := by
  constructor
  · intro s
    exact classifyLow_shape (Str.jsToLower s)
  · intro arg h
    cases arg with
    | jnull => simp [ModelManager.getModelInfo] at h
    | jstr s =>
      have h2 : (if s = "" then some (ModelManager.createModelInfo (.tstr "medium"))
          else ModelManager.getModelInfoStr s) = none := h
      by_cases hs : s = ""
      · rw [if_pos hs] at h2
        exact Option.noConfusion h2
      · rw [if_neg hs] at h2
        have h3 : (if Str.containsChar s '|' = true then
            ModelManager.handleCombinedRequest
              (String.mk ((Str.splitOnChar '|' s.data).headD []))
              (String.mk (((Str.splitOnChar '|' s.data)[1]?).getD []))
          else some (ModelManager.classifyNoPipe s)) = none := h2
        by_cases hc : Str.containsChar s '|' = true
        · exact hc
        · rw [if_neg hc] at h3
          exact Option.noConfusion h3
    | jobj name id =>
      have h2 : (if Str.containsChar (ModelManager.extractModelName name id) '|' = true then
          ModelManager.handleCombinedRequest
            (String.mk ((Str.splitOnChar '|' (ModelManager.extractModelName name id).data).headD []))
            (String.mk (((Str.splitOnChar '|' (ModelManager.extractModelName name id).data)[1]?).getD []))
        else some (ModelManager.classifyNoPipe (ModelManager.extractModelName name id))) = none := h
      by_cases hc : Str.containsChar (ModelManager.extractModelName name id) '|' = true
      · exact hc
      · rw [if_neg hc] at h2
        exact Option.noConfusion h2

/-- C2 counterexample: the mismatched combined selector `small|mistral`
makes `getModelInfo` return null rather than a capability record, and the
identifier `phi-3` yields a record whose tier is the raw nested family
table, not one of the four tier strings. -/
theorem C2_counterexample_combined_and_phi3 :
    ModelManager.getModelInfo (.jstr "small|mistral") = none
    ∧ (ModelManager.classifyNoPipe "phi-3").tier = ModelManager.TierVal.tobj
    ∧ (ModelManager.classifyNoPipe "phi-3").tier
        ∉ [ModelManager.TierVal.tstr "small", ModelManager.TierVal.tstr "medium",
           ModelManager.TierVal.tstr "large", ModelManager.TierVal.tstr "xl"] := by
  refine ⟨by decide, by decide, by decide⟩

theorem C2_witness :
    ((∃ t, t ∈ (["small", "medium", "large", "xl"] : List String)
        ∧ ModelManager.classifyNoPipe "tinyllama" = ModelManager.createModelInfo (.tstr t))
      ∨ ModelManager.classifyNoPipe "tinyllama" = ModelManager.createModelInfo .tobj)
    ∧ Str.containsChar (ModelManager.argString (.jstr "small|mistral")) '|' = true :=
  ⟨C2_classifier_total_amended.1 "tinyllama",
   C2_classifier_total_amended.2 (.jstr "small|mistral") (by decide)⟩

end LLMule
